import Mathlib

/-!
Verification development for the usage-accounting / admission-control core of
the DCT_Whisper backend: the `UsageStore` reservation engine
(`backend/usage_store.py`) and the in-memory token-bucket rate limiter
(`backend/limiter.py`).

Python dictionaries are embedded as association lists with unique-key update
(`setKey`), first-occurrence removal (`eraseKey`, the effect of `dict.pop` on a
dict, whose keys are unique) and `lookupKey`.  Python `int` is embedded as
`Int`; the wall clock is passed explicitly as a `Date` argument to every
operation that reads `date.today()`.  Operations that can raise return
`Except String _` (the `RuntimeError` reason) and operations that can hit an
uncaught `KeyError` return `Option _` (`none` = crash).  The limiter's float
arithmetic is embedded with exact rationals (`ℚ`).
-/

namespace DCTWhisper

/-- Calendar date, standing for Python `datetime.date` (only equality of days
and the (year, month) projection are used by the code). -/
structure Date where
  year : Int
  month : Int
  day : Int
deriving DecidableEq, Repr

/-- Association-list lookup, the embedding of `d[k]` / `d.get(k)`. -/
def lookupKey (k : String) : List (String × β) → Option β
  | [] => none
  | (k', v) :: rest => if k = k' then some v else lookupKey k rest

/-- Association-list update, the embedding of `d[k] = v`: replaces the entry in
place when the key is present, appends otherwise. -/
def setKey (k : String) (v : β) : List (String × β) → List (String × β)
  | [] => [(k, v)]
  | (k', v') :: rest => if k = k' then (k, v) :: rest else (k', v') :: setKey k v rest

/-- Association-list removal of the first occurrence of a key, the embedding of
the removal effect of `d.pop(k, None)` (a Python dict holds each key once). -/
def eraseKey (k : String) : List (String × β) → List (String × β)
  | [] => []
  | (k', v') :: rest => if k = k' then rest else (k', v') :: eraseKey k rest

/-- `UsageJob` from `usage_store.py`: an in-flight reservation. -/
structure UsageJob where
  user_id : String
  tenant_id : String
  reserved_minutes : Int
  task_id : String
deriving DecidableEq, Repr

/-- `UsageRecord` from `usage_store.py`: per-identity counters with the day and
month the counters belong to. -/
structure UsageRecord where
  day : Date
  month : Int × Int
  minutes_today : Int := 0
  minutes_month : Int := 0
  reserved_minutes : Int := 0
  active_jobs : Int := 0
deriving DecidableEq, Repr

/-- The `limits` dict passed to `reserve` (built in `main._limits_dict`); all
four keys are always present, `minutes_per_day`/`minutes_per_month` are read
with `limits.get(..., 0)` and the concurrency keys with `limits[...]`. -/
structure Limits where
  concurrent_user : Int
  concurrent_tenant : Int
  minutes_per_day : Int
  minutes_per_month : Int
deriving DecidableEq, Repr

/-- The mutable state of a `UsageStore`: its three dicts. -/
structure UsageStore where
  user_records : List (String × UsageRecord)
  tenant_records : List (String × UsageRecord)
  jobs : List (String × UsageJob)
deriving DecidableEq, Repr

/-- The store a fresh `UsageStore()` starts with. -/
def emptyStore : UsageStore := ⟨[], [], []⟩

/-- `UsageStore._apply_period_rollover`: if the record's day differs from
today, reset `minutes_today` AND `reserved_minutes` to 0 and advance the day
(the source resets `reserved_minutes` here); if the record's month differs from
the current month, reset `minutes_month` to 0 and advance the month. -/
def applyPeriodRollover (today : Date) (r : UsageRecord) : UsageRecord :=
  let r1 := if r.day ≠ today then
      { r with day := today, minutes_today := 0, reserved_minutes := 0 }
    else r
  if r1.month ≠ (today.year, today.month) then
    { r1 with month := (today.year, today.month), minutes_month := 0 }
  else r1

/-- The record `_ensure_records` creates for an unseen identity. -/
def freshRecord (today : Date) : UsageRecord :=
  { day := today, month := (today.year, today.month) }

/-- `UsageStore._ensure_records`: create missing records for the two ids, then
apply period rollover to both. -/
def ensureRecords (today : Date) (user_id tenant_id : String) (s : UsageStore) :
    UsageStore :=
  let u := (lookupKey user_id s.user_records).getD (freshRecord today)
  let t := (lookupKey tenant_id s.tenant_records).getD (freshRecord today)
  { s with
    user_records := setKey user_id (applyPeriodRollover today u) s.user_records
    tenant_records := setKey tenant_id (applyPeriodRollover today t) s.tenant_records }

/-- The admission checks of `UsageStore.reserve`, in source order, returning
the first violated reason.

The source block holding the quota checks contains a duplicated, dead pair of
unguarded checks left over from an edit (it is not even syntactically
reachable); per the repository's own resolution (spec §4.2 and Design Notes:
"implementers should not replicate the duplicated/dead branches") the live
checks are the first, guarded pair: a `quota_day`/`quota_month` check only
fires when the corresponding limit is `> 0`.  The concurrency checks have no
such guard in the source. -/
def reserveChecked (user tenant : UsageRecord) (minutes : Int) (limits : Limits) :
    Option String :=
  if user.active_jobs ≥ limits.concurrent_user then some "concurrency_user"
  else if tenant.active_jobs ≥ limits.concurrent_tenant then some "concurrency_tenant"
  else if limits.minutes_per_day > 0 ∧
      user.minutes_today + user.reserved_minutes + minutes > limits.minutes_per_day then
    some "quota_day"
  else if limits.minutes_per_month > 0 ∧
      user.minutes_month + user.reserved_minutes + minutes > limits.minutes_per_month then
    some "quota_month"
  else none

/-- `UsageStore.reserve`: ensure + roll over both records, run the admission
checks, and on success increment `reserved_minutes` by `minutes` and
`active_jobs` by 1 on both records and create the job entry keyed by `job_id`
(with `task_id = job_id`).  The returned store is the state after the call
(`_ensure_records` has mutated the store even when the call raises). -/
def reserve (today : Date) (user_id tenant_id : String) (minutes : Int)
    (job_id : String) (limits : Limits) (s : UsageStore) :
    Except String Unit × UsageStore :=
  let s1 := ensureRecords today user_id tenant_id s
  let user := (lookupKey user_id s1.user_records).getD (freshRecord today)
  let tenant := (lookupKey tenant_id s1.tenant_records).getD (freshRecord today)
  match reserveChecked user tenant minutes limits with
  | some reason => (.error reason, s1)
  | none =>
    let user' := { user with
      reserved_minutes := user.reserved_minutes + minutes
      active_jobs := user.active_jobs + 1 }
    let tenant' := { tenant with
      reserved_minutes := tenant.reserved_minutes + minutes
      active_jobs := tenant.active_jobs + 1 }
    (.ok (), { s1 with
      user_records := setKey user_id user' s1.user_records
      tenant_records := setKey tenant_id tenant' s1.tenant_records
      jobs := setKey job_id ⟨user_id, tenant_id, minutes, job_id⟩ s1.jobs })

/-- `UsageStore.confirm`: pop the job keyed by `reservation_id` (raising
`reservation_missing` when absent), set its `task_id` and re-insert it keyed by
`task_id`. -/
def confirm (reservation_id task_id : String) (s : UsageStore) :
    Except String UsageStore :=
  match lookupKey reservation_id s.jobs with
  | none => .error "reservation_missing"
  | some job =>
    .ok { s with
      jobs := setKey task_id { job with task_id := task_id }
        (eraseKey reservation_id s.jobs) }

/-- `UsageStore.commit`: pop the job keyed by `task_id` (silent no-op when
absent); roll over both records, release the reserved minutes and the job slot
(each decrement floored at 0), then add the actual minutes to both period
counters on both records.  `none` stands for the uncaught `KeyError` the
source would raise if a live job referenced an identity with no record. -/
def commit (today : Date) (task_id : String) (minutes_actual : Int)
    (s : UsageStore) : Option UsageStore :=
  match lookupKey task_id s.jobs with
  | none => some s
  | some job =>
    match lookupKey job.user_id s.user_records,
        lookupKey job.tenant_id s.tenant_records with
    | some user, some tenant =>
      let user1 := applyPeriodRollover today user
      let tenant1 := applyPeriodRollover today tenant
      let reserved := job.reserved_minutes
      let user2 := { user1 with
        reserved_minutes := max 0 (user1.reserved_minutes - reserved)
        active_jobs := max 0 (user1.active_jobs - 1)
        minutes_today := user1.minutes_today + minutes_actual
        minutes_month := user1.minutes_month + minutes_actual }
      let tenant2 := { tenant1 with
        reserved_minutes := max 0 (tenant1.reserved_minutes - reserved)
        active_jobs := max 0 (tenant1.active_jobs - 1)
        minutes_today := tenant1.minutes_today + minutes_actual
        minutes_month := tenant1.minutes_month + minutes_actual }
      some { s with
        jobs := eraseKey task_id s.jobs
        user_records := setKey job.user_id user2 s.user_records
        tenant_records := setKey job.tenant_id tenant2 s.tenant_records }
    | _, _ => none

/-- `UsageStore.rollback`: same bookkeeping as `commit` but nothing is added to
the period counters. -/
def rollback (today : Date) (job_id : String) (s : UsageStore) :
    Option UsageStore :=
  match lookupKey job_id s.jobs with
  | none => some s
  | some job =>
    match lookupKey job.user_id s.user_records,
        lookupKey job.tenant_id s.tenant_records with
    | some user, some tenant =>
      let user1 := applyPeriodRollover today user
      let tenant1 := applyPeriodRollover today tenant
      let reserved := job.reserved_minutes
      let user2 := { user1 with
        reserved_minutes := max 0 (user1.reserved_minutes - reserved)
        active_jobs := max 0 (user1.active_jobs - 1) }
      let tenant2 := { tenant1 with
        reserved_minutes := max 0 (tenant1.reserved_minutes - reserved)
        active_jobs := max 0 (tenant1.active_jobs - 1) }
      some { s with
        jobs := eraseKey job_id s.jobs
        user_records := setKey job.user_id user2 s.user_records
        tenant_records := setKey job.tenant_id tenant2 s.tenant_records }
    | _, _ => none

/-- State effect of `UsageStore.get_usage`: it only ensures + rolls over the
two records before reading them. -/
def getUsage (today : Date) (user_id tenant_id : String) (s : UsageStore) :
    UsageStore :=
  ensureRecords today user_id tenant_id s

/-- One public `UsageStore` call together with its minute argument(s). -/
inductive Op where
  | reserveOp (user_id tenant_id : String) (minutes : Int) (job_id : String)
      (limits : Limits)
  | confirmOp (reservation_id task_id : String)
  | commitOp (task_id : String) (minutes_actual : Int)
  | rollbackOp (job_id : String)
  | getUsageOp (user_id tenant_id : String)
deriving DecidableEq, Repr

/-- The store after one call, observed at wall-clock date `today`.  A call
that raises (`reserve`, `confirm`) still leaves its partial mutation; the
`KeyError` branch of `commit`/`rollback` (which in reachable states never
fires, see `commit_no_keyError`) is mapped to the pre-call store. -/
def runOp (today : Date) (s : UsageStore) : Op → UsageStore
  | .reserveOp u t m j L => (reserve today u t m j L s).2
  | .confirmOp r t =>
    match confirm r t s with
    | .ok s' => s'
    | .error _ => s
  | .commitOp t m => (commit today t m s).getD s
  | .rollbackOp j => (rollback today j s).getD s
  | .getUsageOp u t => getUsage today u t s

/-- The store after a sequence of calls, each with its own wall-clock date. -/
def run (s : UsageStore) : List (Date × Op) → UsageStore
  | [] => s
  | (d, op) :: rest => run (runOp d s op) rest

/-- The non-negative fields an `UsageRecord` is supposed to keep. -/
def recordNonneg (r : UsageRecord) : Prop :=
  0 ≤ r.minutes_today ∧ 0 ≤ r.minutes_month ∧ 0 ≤ r.reserved_minutes ∧
    0 ≤ r.active_jobs

instance (r : UsageRecord) : Decidable (recordNonneg r) := by
  unfold recordNonneg; infer_instance

/-- Every user and tenant record in the store has non-negative counters. -/
def storeNonneg (s : UsageStore) : Prop :=
  (∀ p ∈ s.user_records, recordNonneg p.2) ∧
    (∀ p ∈ s.tenant_records, recordNonneg p.2)

instance (s : UsageStore) : Decidable (storeNonneg s) := by
  unfold storeNonneg; infer_instance

/-- An operation whose minute arguments are non-negative. -/
def opNonneg : Op → Prop
  | .reserveOp _ _ m _ _ => 0 ≤ m
  | .commitOp _ m => 0 ≤ m
  | _ => True

instance (op : Op) : Decidable (opNonneg op) := by
  unfold opNonneg; cases op <;> infer_instance

/-! ## Token-bucket rate limiter (`backend/limiter.py`, `InMemoryTokenBucket`)

The bucket map `self._buckets : dict[str, tuple[float, float]]` is embedded as
an association list of `(tokens, last_refill)` pairs; the float arithmetic is
embedded with exact rationals. -/

/-- The bucket map of an `InMemoryTokenBucket`. -/
abbrev Buckets := List (String × (ℚ × ℚ))

/-- `InMemoryTokenBucket.allow` observed at monotonic time `now`: refill the
key's bucket proportionally to the elapsed time at `rate / window_seconds`
tokens per second, capped at `capacity = rate`; admit iff the refilled tokens
cover `cost`, deducting `cost` on admission; store the new `(tokens, now)`
pair.  A missing bucket starts full at `(capacity, now)`. -/
def allow (now : ℚ) (key : String) (rate : Int) (cost : Int)
    (window_seconds : Int) (b : Buckets) : Bool × Buckets :=
  let capacity : ℚ := (rate : ℚ)
  let refill_rate : ℚ := capacity / (window_seconds : ℚ)
  let p := (lookupKey key b).getD (capacity, now)
  let tokens := min capacity (p.1 + (now - p.2) * refill_rate)
  let allowed := decide ((cost : ℚ) ≤ tokens)
  let tokens' := if (cost : ℚ) ≤ tokens then tokens - (cost : ℚ) else tokens
  (allowed, setKey key (tokens', now) b)

/-- The bucket maps reachable by a sequence of `allow` calls for one key with
one fixed `rate`, non-decreasing timestamps, non-negative costs and positive
window lengths; the index is the timestamp of the latest call. -/
inductive BucketReach (key : String) (rate : Int) : ℚ → Buckets → Prop
  | init (now : ℚ) : BucketReach key rate now []
  | step (now now' : ℚ) (cost window : Int) (b : Buckets) :
      BucketReach key rate now b → now ≤ now' → 0 ≤ cost → 0 < window →
      BucketReach key rate now' (allow now' key rate cost window b).2

/-! ## Association-list lemmas -/

theorem lookupKey_setKey_self (k : String) (v : β) (l : List (String × β)) :
    lookupKey k (setKey k v l) = some v := by
  induction l with
  | nil => simp [setKey, lookupKey]
  | cons p rest ih =>
    by_cases h : k = p.1
    · simp [setKey, h, lookupKey]
    · simp [setKey, h, lookupKey, ih]

theorem lookupKey_setKey_ne (k k' : String) (v : β) (l : List (String × β))
    (h : k ≠ k') : lookupKey k (setKey k' v l) = lookupKey k l := by
  induction l with
  | nil => simp [setKey, lookupKey, h]
  | cons p rest ih =>
    by_cases h1 : k' = p.1
    · simp [setKey, h1, lookupKey, h, h1 ▸ h]
    · by_cases h2 : k = p.1
      · simp [setKey, h1, lookupKey, h2]
      · simp [setKey, h1, lookupKey, h2, ih]

theorem setKey_lookup_eq (k : String) (v : β) (l : List (String × β))
    (h : lookupKey k l = some v) : setKey k v l = l := by
  induction l with
  | nil => simp [lookupKey] at h
  | cons p rest ih =>
    by_cases h1 : k = p.1
    · simp [lookupKey, h1] at h
      simp [setKey, h1, ← h]
    · simp [lookupKey, h1] at h
      simp [setKey, h1, ih h]

theorem eraseKey_lookup_none (k : String) (l : List (String × β))
    (h : lookupKey k l = none) : eraseKey k l = l := by
  induction l with
  | nil => simp [eraseKey]
  | cons p rest ih =>
    by_cases h1 : k = p.1
    · simp [lookupKey, h1] at h
    · simp [lookupKey, h1] at h
      simp [eraseKey, h1, ih h]

theorem lookupKey_none_of_not_mem (k : String) (l : List (String × β))
    (h : k ∉ l.map Prod.fst) : lookupKey k l = none := by
  induction l with
  | nil => simp [lookupKey]
  | cons p rest ih =>
    simp only [List.map_cons, List.mem_cons] at h
    push_neg at h
    simp [lookupKey, h.1, ih h.2]

theorem lookupKey_eraseKey_self (k : String) (l : List (String × β))
    (h : (l.map Prod.fst).Nodup) : lookupKey k (eraseKey k l) = none := by
  induction l with
  | nil => simp [eraseKey, lookupKey]
  | cons p rest ih =>
    simp only [List.map_cons, List.nodup_cons] at h
    by_cases h1 : k = p.1
    · simpa [eraseKey, h1] using lookupKey_none_of_not_mem p.1 rest h.1
    · simp [eraseKey, h1, lookupKey, ih h.2]

theorem lookupKey_eraseKey_ne (k k' : String) (l : List (String × β))
    (h : k ≠ k') : lookupKey k (eraseKey k' l) = lookupKey k l := by
  induction l with
  | nil => simp [eraseKey]
  | cons p rest ih =>
    by_cases h1 : k' = p.1
    · simp [eraseKey, h1, lookupKey, h1 ▸ h]
    · by_cases h2 : k = p.1
      · simp [eraseKey, h1, lookupKey, h2]
      · simp [eraseKey, h1, lookupKey, h2, ih]

theorem mem_setKey (k : String) (v : β) (l : List (String × β))
    (p : String × β) (h : p ∈ setKey k v l) : p = (k, v) ∨ p ∈ l := by
  induction l with
  | nil => simpa [setKey] using h
  | cons q rest ih =>
    by_cases h1 : k = q.1
    · rcases (by simpa [setKey, h1] using h : p = (k, v) ∨ p ∈ rest) with h2 | h2
      · exact Or.inl h2
      · exact Or.inr (List.mem_cons_of_mem _ h2)
    · rcases (by simpa [setKey, h1] using h : p = q ∨ p ∈ setKey k v rest) with h2 | h2
      · exact Or.inr (h2 ▸ List.mem_cons_self _ _)
      · rcases ih h2 with h3 | h3
        · exact Or.inl h3
        · exact Or.inr (List.mem_cons_of_mem _ h3)

theorem mem_eraseKey (k : String) (l : List (String × β))
    (p : String × β) (h : p ∈ eraseKey k l) : p ∈ l := by
  induction l with
  | nil => simp [eraseKey] at h
  | cons q rest ih =>
    by_cases h1 : k = q.1
    · exact List.mem_cons_of_mem _ (by simp only [eraseKey, if_pos h1] at h; exact h)
    · rcases (by simpa [eraseKey, h1] using h : p = q ∨ p ∈ eraseKey k rest) with h2 | h2
      · exact h2 ▸ List.mem_cons_self _ _
      · exact List.mem_cons_of_mem _ (ih h2)

theorem lookupKey_mem (k : String) (l : List (String × β)) (v : β)
    (h : lookupKey k l = some v) : (k, v) ∈ l := by
  induction l with
  | nil => simp [lookupKey] at h
  | cons p rest ih =>
    by_cases h1 : k = p.1
    · simp only [lookupKey, if_pos h1] at h
      obtain ⟨rfl⟩ := h
      exact h1 ▸ (by simp)
    · simp only [lookupKey, if_neg h1] at h
      exact List.mem_cons_of_mem _ (ih h)

/-! ## Basic facts about rollover and record creation -/

/-- A record whose day and month match the wall clock is untouched by
rollover. -/
theorem applyPeriodRollover_current (today : Date) (r : UsageRecord)
    (hd : r.day = today) (hm : r.month = (today.year, today.month)) :
    applyPeriodRollover today r = r := by
  simp [applyPeriodRollover, hd, hm]

/-- Rollover preserves non-negative counters. -/
theorem applyPeriodRollover_nonneg (today : Date) (r : UsageRecord)
    (h : recordNonneg r) : recordNonneg (applyPeriodRollover today r) := by
  obtain ⟨h1, h2, h3, h4⟩ := h
  unfold applyPeriodRollover
  by_cases hd : r.day = today <;> by_cases hm : r.month = (today.year, today.month) <;>
    simp [hd, hm, recordNonneg, *]

/-- When both records exist and already carry the current day and month,
`_ensure_records` leaves the store unchanged. -/
theorem ensureRecords_current (today : Date) (uid tid : String) (s : UsageStore)
    (u t : UsageRecord)
    (hu : lookupKey uid s.user_records = some u)
    (hud : u.day = today) (hum : u.month = (today.year, today.month))
    (ht : lookupKey tid s.tenant_records = some t)
    (htd : t.day = today) (htm : t.month = (today.year, today.month)) :
    ensureRecords today uid tid s = s := by
  unfold ensureRecords
  rw [hu, ht]
  simp only [Option.getD_some,
    applyPeriodRollover_current today u hud hum,
    applyPeriodRollover_current today t htd htm,
    setKey_lookup_eq uid u s.user_records hu,
    setKey_lookup_eq tid t s.tenant_records ht]

/-- The user record `reserve` checks, as a function of the pre-call store. -/
theorem lookup_user_ensureRecords (today : Date) (uid tid : String)
    (s : UsageStore) :
    lookupKey uid (ensureRecords today uid tid s).user_records =
      some (applyPeriodRollover today
        ((lookupKey uid s.user_records).getD (freshRecord today))) := by
  simp [ensureRecords, lookupKey_setKey_self]

/-- The tenant record `reserve` checks, as a function of the pre-call store. -/
theorem lookup_tenant_ensureRecords (today : Date) (uid tid : String)
    (s : UsageStore) :
    lookupKey tid (ensureRecords today uid tid s).tenant_records =
      some (applyPeriodRollover today
        ((lookupKey tid s.tenant_records).getD (freshRecord today))) := by
  simp [ensureRecords, lookupKey_setKey_self]

/-- `reserve` as a function of the two rolled-over records. -/
theorem reserve_eq (today : Date) (uid tid : String) (m : Int) (jid : String)
    (L : Limits) (s : UsageStore) :
    reserve today uid tid m jid L s =
      (let u := applyPeriodRollover today
        ((lookupKey uid s.user_records).getD (freshRecord today))
       let t := applyPeriodRollover today
        ((lookupKey tid s.tenant_records).getD (freshRecord today))
       let s1 := ensureRecords today uid tid s
       match reserveChecked u t m L with
       | some reason => (.error reason, s1)
       | none =>
         (.ok (), { s1 with
           user_records := setKey uid { u with
             reserved_minutes := u.reserved_minutes + m
             active_jobs := u.active_jobs + 1 } s1.user_records
           tenant_records := setKey tid { t with
             reserved_minutes := t.reserved_minutes + m
             active_jobs := t.active_jobs + 1 } s1.tenant_records
           jobs := setKey jid ⟨uid, tid, m, jid⟩ s1.jobs })) := by
  simp only [reserve, lookup_user_ensureRecords, lookup_tenant_ensureRecords,
    Option.getD_some]

instance [DecidableEq ε] [DecidableEq α] : DecidableEq (Except ε α) := fun a b =>
  match a, b with
  | .error x, .error y =>
    if h : x = y then .isTrue (by rw [h]) else .isFalse (by simp [h])
  | .error _, .ok _ => .isFalse (by simp)
  | .ok _, .error _ => .isFalse (by simp)
  | .ok x, .ok y =>
    if h : x = y then .isTrue (by rw [h]) else .isFalse (by simp [h])

/-! ## C1 -/

/-- C1: `reserve` evaluates its preconditions in the order `concurrency_user`,
`concurrency_tenant`, `quota_day`, `quota_month` and fails with the first
violated reason (in particular, a caller at its concurrency ceiling receives a
concurrency reason regardless of the quota checks); any failure leaves the
store exactly as it was (stated for records already carrying the current day
and month, so that the lazy period rollover performed on entry is the
identity); on success `reserved_minutes` grows by `minutes` and `active_jobs`
by 1 on both the user and tenant record and a job entry keyed by `job_id` is
created. -/
theorem C1_reserve_order_frame_effects
    (today : Date) (uid tid : String) (m : Int) (jid : String)
    (L : Limits) (s : UsageStore) (u t : UsageRecord)
    (hu : lookupKey uid s.user_records = some u)
    (hud : u.day = today) (hum : u.month = (today.year, today.month))
    (ht : lookupKey tid s.tenant_records = some t)
    (htd : t.day = today) (htm : t.month = (today.year, today.month)) :
    (u.active_jobs ≥ L.concurrent_user →
      reserve today uid tid m jid L s = (.error "concurrency_user", s)) ∧
    (u.active_jobs < L.concurrent_user →
      t.active_jobs ≥ L.concurrent_tenant →
      reserve today uid tid m jid L s = (.error "concurrency_tenant", s)) ∧
    (u.active_jobs < L.concurrent_user →
      t.active_jobs < L.concurrent_tenant →
      L.minutes_per_day > 0 →
      u.minutes_today + u.reserved_minutes + m > L.minutes_per_day →
      reserve today uid tid m jid L s = (.error "quota_day", s)) ∧
    (u.active_jobs < L.concurrent_user →
      t.active_jobs < L.concurrent_tenant →
      ¬(L.minutes_per_day > 0 ∧
        u.minutes_today + u.reserved_minutes + m > L.minutes_per_day) →
      L.minutes_per_month > 0 →
      u.minutes_month + u.reserved_minutes + m > L.minutes_per_month →
      reserve today uid tid m jid L s = (.error "quota_month", s)) ∧
    (∀ reason s', reserve today uid tid m jid L s = (.error reason, s') →
      s' = s) ∧
    (u.active_jobs < L.concurrent_user →
      t.active_jobs < L.concurrent_tenant →
      ¬(L.minutes_per_day > 0 ∧
        u.minutes_today + u.reserved_minutes + m > L.minutes_per_day) →
      ¬(L.minutes_per_month > 0 ∧
        u.minutes_month + u.reserved_minutes + m > L.minutes_per_month) →
      reserve today uid tid m jid L s =
        (.ok (), { s with
          user_records := setKey uid { u with
            reserved_minutes := u.reserved_minutes + m
            active_jobs := u.active_jobs + 1 } s.user_records
          tenant_records := setKey tid { t with
            reserved_minutes := t.reserved_minutes + m
            active_jobs := t.active_jobs + 1 } s.tenant_records
          jobs := setKey jid ⟨uid, tid, m, jid⟩ s.jobs })) := by
  have hens : ensureRecords today uid tid s = s :=
    ensureRecords_current today uid tid s u t hu hud hum ht htd htm
  have hru : applyPeriodRollover today
      ((lookupKey uid s.user_records).getD (freshRecord today)) = u := by
    rw [hu]; exact applyPeriodRollover_current today u hud hum
  have hrt : applyPeriodRollover today
      ((lookupKey tid s.tenant_records).getD (freshRecord today)) = t := by
    rw [ht]; exact applyPeriodRollover_current today t htd htm
  have hr := reserve_eq today uid tid m jid L s
  simp only [hru, hrt, hens] at hr
  refine ⟨?_, ?_, ?_, ?_, ?_, ?_⟩
  · intro h1
    rw [hr]; simp [reserveChecked, h1]
  · intro h1 h2
    rw [hr]; simp [reserveChecked, not_le.mpr h1, h2]
  · intro h1 h2 h3 h4
    rw [hr]; simp [reserveChecked, not_le.mpr h1, not_le.mpr h2, h3, h4]
  · intro h1 h2 h3 h4 h5
    rw [hr]; simp [reserveChecked, not_le.mpr h1, not_le.mpr h2, h3, h4, h5]
  · intro reason s' h1
    rw [hr] at h1
    rcases hck : reserveChecked u t m L with _ | r
    · rw [hck] at h1; simp at h1
    · rw [hck] at h1
      simp only [Prod.mk.injEq] at h1
      exact h1.2.symm
  · intro h1 h2 h3 h4
    rw [hr]
    simp [reserveChecked, not_le.mpr h1, not_le.mpr h2, h3, h4]

/-- Witness for C1 at a concrete input: a user already at its concurrency
ceiling is denied with `concurrency_user` even though it is also over its day
quota, and the store is untouched. -/
theorem C1_witness :
    reserve ⟨2024, 5, 1⟩ "u" "t" 50 "j" ⟨1, 5, 40, 1000⟩
      ⟨[("u", ⟨⟨2024, 5, 1⟩, (2024, 5), 10, 50, 3, 1⟩)],
       [("t", ⟨⟨2024, 5, 1⟩, (2024, 5), 0, 0, 0, 0⟩)], []⟩ =
      (.error "concurrency_user",
       ⟨[("u", ⟨⟨2024, 5, 1⟩, (2024, 5), 10, 50, 3, 1⟩)],
        [("t", ⟨⟨2024, 5, 1⟩, (2024, 5), 0, 0, 0, 0⟩)], []⟩) :=
  (C1_reserve_order_frame_effects ⟨2024, 5, 1⟩ "u" "t" 50 "j" ⟨1, 5, 40, 1000⟩
      ⟨[("u", ⟨⟨2024, 5, 1⟩, (2024, 5), 10, 50, 3, 1⟩)],
       [("t", ⟨⟨2024, 5, 1⟩, (2024, 5), 0, 0, 0, 0⟩)], []⟩
      ⟨⟨2024, 5, 1⟩, (2024, 5), 10, 50, 3, 1⟩
      ⟨⟨2024, 5, 1⟩, (2024, 5), 0, 0, 0, 0⟩
      (by decide) (by decide) (by decide) (by decide) (by decide)
      (by decide)).1 (by decide)

/-! ## C2 -/

/-- C2 as stated is false on the code: the concurrency checks have no `0 =
unlimited` special case, so `concurrent_user = 0` (resp. `concurrent_tenant =
0` with a positive user ceiling) makes a first reservation on a fresh store
fail with a concurrency reason. -/
theorem C2_counterexample :
    (reserve ⟨2024, 5, 1⟩ "u" "t" 1 "j" ⟨0, 5, 0, 0⟩ emptyStore).1 =
        .error "concurrency_user" ∧
    (reserve ⟨2024, 5, 1⟩ "u" "t" 1 "j" ⟨5, 0, 0, 0⟩ emptyStore).1 =
        .error "concurrency_tenant" := by
  decide

/-- C2 amended: a limit of 0 means unlimited for the two quota dimensions
(`minutes_per_day = 0` rules out `quota_day`, `minutes_per_month = 0` rules
out `quota_month`), but for the concurrency dimensions a limit of 0 admits
nothing: on a store with non-negative counters, `concurrent_user = 0` makes
every `reserve` fail with `concurrency_user`, and `concurrent_tenant = 0`
makes it fail with `concurrency_user` or `concurrency_tenant`. -/
theorem C2_amended_zero_limits
    (today : Date) (uid tid : String) (m : Int) (jid : String)
    (L : Limits) (s : UsageStore) :
    (L.minutes_per_day = 0 →
      (reserve today uid tid m jid L s).1 ≠ .error "quota_day") ∧
    (L.minutes_per_month = 0 →
      (reserve today uid tid m jid L s).1 ≠ .error "quota_month") ∧
    (storeNonneg s → L.concurrent_user = 0 →
      (reserve today uid tid m jid L s).1 = .error "concurrency_user") ∧
    (storeNonneg s → L.concurrent_tenant = 0 →
      (reserve today uid tid m jid L s).1 = .error "concurrency_user" ∨
      (reserve today uid tid m jid L s).1 = .error "concurrency_tenant") := by
  have hr := reserve_eq today uid tid m jid L s
  set u := applyPeriodRollover today
    ((lookupKey uid s.user_records).getD (freshRecord today)) with hu
  set t := applyPeriodRollover today
    ((lookupKey tid s.tenant_records).getD (freshRecord today)) with htt
  have hfst : (reserve today uid tid m jid L s).1 =
      match reserveChecked u t m L with
      | some reason => .error reason
      | none => .ok () := by
    rw [hr]
    rcases hck : reserveChecked u t m L with _ | r <;> simp [hck]
  have huact : storeNonneg s → 0 ≤ u.active_jobs := by
    intro hnn
    have : recordNonneg ((lookupKey uid s.user_records).getD (freshRecord today)) := by
      rcases hl : lookupKey uid s.user_records with _ | v
      · simp [freshRecord, recordNonneg]
      · simpa using hnn.1 _ (lookupKey_mem uid s.user_records v hl)
    exact (applyPeriodRollover_nonneg today _ this).2.2.2
  have htact : storeNonneg s → 0 ≤ t.active_jobs := by
    intro hnn
    have : recordNonneg ((lookupKey tid s.tenant_records).getD (freshRecord today)) := by
      rcases hl : lookupKey tid s.tenant_records with _ | v
      · simp [freshRecord, recordNonneg]
      · simpa using hnn.2 _ (lookupKey_mem tid s.tenant_records v hl)
    exact (applyPeriodRollover_nonneg today _ this).2.2.2
  refine ⟨?_, ?_, ?_, ?_⟩
  · intro hday
    rw [hfst]
    unfold reserveChecked
    split_ifs with h1 h2 h3 h4 <;> simp_all
  · intro hmonth
    rw [hfst]
    unfold reserveChecked
    split_ifs with h1 h2 h3 h4 <;> simp_all
  · intro hnn hcu
    rw [hfst]
    have : u.active_jobs ≥ L.concurrent_user := hcu ▸ huact hnn
    simp [reserveChecked, this]
  · intro hnn hct
    rw [hfst]
    by_cases h1 : u.active_jobs ≥ L.concurrent_user
    · left; simp [reserveChecked, h1]
    · right
      have : t.active_jobs ≥ L.concurrent_tenant := hct ▸ htact hnn
      simp [reserveChecked, h1, this]

/-- Witness for the amended C2 at a concrete input: with both quota limits 0
and generous concurrency limits, a reservation of 10000 minutes is not denied
for `quota_day`, and with `concurrent_user = 0` it is denied with
`concurrency_user`. -/
theorem C2_amended_witness :
    (reserve ⟨2024, 5, 1⟩ "u" "t" 10000 "j" ⟨5, 5, 0, 0⟩ emptyStore).1 ≠
        Except.error "quota_day" ∧
    (reserve ⟨2024, 5, 1⟩ "u" "t" 1 "j" ⟨0, 5, 0, 0⟩ emptyStore).1 =
        Except.error "concurrency_user" :=
  ⟨(C2_amended_zero_limits ⟨2024, 5, 1⟩ "u" "t" 10000 "j" ⟨5, 5, 0, 0⟩
      emptyStore).1 (by decide),
   (C2_amended_zero_limits ⟨2024, 5, 1⟩ "u" "t" 1 "j" ⟨0, 5, 0, 0⟩
      emptyStore).2.2.1 (by decide) (by decide)⟩

/-! ## C3 -/

/-- C3 is right about the intent but wrong about the code: on a day-boundary
crossing, `_apply_period_rollover` resets `reserved_minutes` to 0 together
with `minutes_today` (dropping in-flight reservations), where the claim (and
the spec, which flags this divergence) say `reserved_minutes` is unchanged.
Here a record holding 7 in-flight reserved minutes crosses a day boundary
inside one month and comes out with `reserved_minutes = 0`; `minutes_month`
and the month part of the claim behave as stated. -/
theorem C3_day_rollover_drops_reserved :
    applyPeriodRollover ⟨2024, 5, 2⟩
      { day := ⟨2024, 5, 1⟩, month := (2024, 5), minutes_today := 30,
        minutes_month := 100, reserved_minutes := 7, active_jobs := 1 } =
      { day := ⟨2024, 5, 2⟩, month := (2024, 5), minutes_today := 0,
        minutes_month := 100, reserved_minutes := 0, active_jobs := 1 } := by
  decide

/-- `commit` on a live job whose two records exist and already carry the
current day and month. -/
theorem commit_found (today : Date) (task : String) (a : Int) (s : UsageStore)
    (job : UsageJob) (user tenant : UsageRecord)
    (hj : lookupKey task s.jobs = some job)
    (hu : lookupKey job.user_id s.user_records = some user)
    (ht : lookupKey job.tenant_id s.tenant_records = some tenant)
    (hud : user.day = today) (hum : user.month = (today.year, today.month))
    (htd : tenant.day = today) (htm : tenant.month = (today.year, today.month)) :
    commit today task a s = some { s with
      jobs := eraseKey task s.jobs
      user_records := setKey job.user_id { user with
        reserved_minutes := max 0 (user.reserved_minutes - job.reserved_minutes)
        active_jobs := max 0 (user.active_jobs - 1)
        minutes_today := user.minutes_today + a
        minutes_month := user.minutes_month + a } s.user_records
      tenant_records := setKey job.tenant_id { tenant with
        reserved_minutes := max 0 (tenant.reserved_minutes - job.reserved_minutes)
        active_jobs := max 0 (tenant.active_jobs - 1)
        minutes_today := tenant.minutes_today + a
        minutes_month := tenant.minutes_month + a } s.tenant_records } := by
  simp only [commit, hj, hu, ht,
    applyPeriodRollover_current today user hud hum,
    applyPeriodRollover_current today tenant htd htm]

/-- `rollback` on a live job whose two records exist and already carry the
current day and month. -/
theorem rollback_found (today : Date) (jid : String) (s : UsageStore)
    (job : UsageJob) (user tenant : UsageRecord)
    (hj : lookupKey jid s.jobs = some job)
    (hu : lookupKey job.user_id s.user_records = some user)
    (ht : lookupKey job.tenant_id s.tenant_records = some tenant)
    (hud : user.day = today) (hum : user.month = (today.year, today.month))
    (htd : tenant.day = today) (htm : tenant.month = (today.year, today.month)) :
    rollback today jid s = some { s with
      jobs := eraseKey jid s.jobs
      user_records := setKey job.user_id { user with
        reserved_minutes := max 0 (user.reserved_minutes - job.reserved_minutes)
        active_jobs := max 0 (user.active_jobs - 1) } s.user_records
      tenant_records := setKey job.tenant_id { tenant with
        reserved_minutes := max 0 (tenant.reserved_minutes - job.reserved_minutes)
        active_jobs := max 0 (tenant.active_jobs - 1) } s.tenant_records } := by
  simp only [rollback, hj, hu, ht,
    applyPeriodRollover_current today user hud hum,
    applyPeriodRollover_current today tenant htd htm]

/-- The store a successful `reserve` leaves behind, when both records exist
and already carry the current day and month. -/
theorem reserve_ok_shape (today : Date) (uid tid : String) (m : Int)
    (jid : String) (L : Limits) (s s1 : UsageStore) (u t : UsageRecord)
    (hu : lookupKey uid s.user_records = some u)
    (hud : u.day = today) (hum : u.month = (today.year, today.month))
    (ht : lookupKey tid s.tenant_records = some t)
    (htd : t.day = today) (htm : t.month = (today.year, today.month))
    (hres : reserve today uid tid m jid L s = (.ok (), s1)) :
    s1 = { s with
      user_records := setKey uid { u with
        reserved_minutes := u.reserved_minutes + m
        active_jobs := u.active_jobs + 1 } s.user_records
      tenant_records := setKey tid { t with
        reserved_minutes := t.reserved_minutes + m
        active_jobs := t.active_jobs + 1 } s.tenant_records
      jobs := setKey jid ⟨uid, tid, m, jid⟩ s.jobs } := by
  have hens : ensureRecords today uid tid s = s :=
    ensureRecords_current today uid tid s u t hu hud hum ht htd htm
  have hru : applyPeriodRollover today
      ((lookupKey uid s.user_records).getD (freshRecord today)) = u := by
    rw [hu]; exact applyPeriodRollover_current today u hud hum
  have hrt : applyPeriodRollover today
      ((lookupKey tid s.tenant_records).getD (freshRecord today)) = t := by
    rw [ht]; exact applyPeriodRollover_current today t htd htm
  have hr := reserve_eq today uid tid m jid L s
  simp only [hru, hrt, hens] at hr
  rcases hck : reserveChecked u t m L with _ | r
  · rw [hck] at hr
    rw [hr] at hres
    simp only [Prod.mk.injEq] at hres
    exact hres.2.symm
  · rw [hck] at hr
    rw [hr] at hres
    simp at hres

/-! ## C4 -/

/-- C4: conservation.  After a successful `reserve` of `m` minutes under job
id `jid` (records current for `today`, counters non-negative, no rollover in
between), settling that job with either `commit` (any actual minutes `a`) or
`rollback` restores `reserved_minutes` and `active_jobs` to their
pre-reservation values on both the user and the tenant record. -/
theorem C4_conservation
    (today : Date) (uid tid : String) (m : Int) (jid : String) (a : Int)
    (L : Limits) (s s1 : UsageStore) (u t : UsageRecord)
    (hu : lookupKey uid s.user_records = some u)
    (hud : u.day = today) (hum : u.month = (today.year, today.month))
    (ht : lookupKey tid s.tenant_records = some t)
    (htd : t.day = today) (htm : t.month = (today.year, today.month))
    (hures : 0 ≤ u.reserved_minutes) (huact : 0 ≤ u.active_jobs)
    (htres : 0 ≤ t.reserved_minutes) (htact : 0 ≤ t.active_jobs)
    (hres : reserve today uid tid m jid L s = (.ok (), s1)) :
    (∃ s2, commit today jid a s1 = some s2 ∧
      (lookupKey uid s2.user_records).map
          (fun r => (r.reserved_minutes, r.active_jobs)) =
        some (u.reserved_minutes, u.active_jobs) ∧
      (lookupKey tid s2.tenant_records).map
          (fun r => (r.reserved_minutes, r.active_jobs)) =
        some (t.reserved_minutes, t.active_jobs)) ∧
    (∃ s3, rollback today jid s1 = some s3 ∧
      (lookupKey uid s3.user_records).map
          (fun r => (r.reserved_minutes, r.active_jobs)) =
        some (u.reserved_minutes, u.active_jobs) ∧
      (lookupKey tid s3.tenant_records).map
          (fun r => (r.reserved_minutes, r.active_jobs)) =
        some (t.reserved_minutes, t.active_jobs)) := by
  have hs1 := reserve_ok_shape today uid tid m jid L s s1 u t
    hu hud hum ht htd htm hres
  subst hs1
  have hj : lookupKey jid (setKey jid (⟨uid, tid, m, jid⟩ : UsageJob) s.jobs) =
      some ⟨uid, tid, m, jid⟩ := lookupKey_setKey_self _ _ _
  have hu' : lookupKey uid (setKey uid ({ u with
      reserved_minutes := u.reserved_minutes + m
      active_jobs := u.active_jobs + 1 } : UsageRecord) s.user_records) =
      some { u with
        reserved_minutes := u.reserved_minutes + m
        active_jobs := u.active_jobs + 1 } := lookupKey_setKey_self _ _ _
  have ht' : lookupKey tid (setKey tid ({ t with
      reserved_minutes := t.reserved_minutes + m
      active_jobs := t.active_jobs + 1 } : UsageRecord) s.tenant_records) =
      some { t with
        reserved_minutes := t.reserved_minutes + m
        active_jobs := t.active_jobs + 1 } := lookupKey_setKey_self _ _ _
  constructor
  · refine ⟨_, commit_found today jid a _ ⟨uid, tid, m, jid⟩ _ _ hj hu' ht'
      hud hum htd htm, ?_, ?_⟩
    · rw [lookupKey_setKey_self]
      simp only [Option.map_some, Option.map_some', Option.some.injEq,
        Prod.mk.injEq]
      omega
    · rw [lookupKey_setKey_self]
      simp only [Option.map_some, Option.map_some', Option.some.injEq,
        Prod.mk.injEq]
      omega
  · refine ⟨_, rollback_found today jid _ ⟨uid, tid, m, jid⟩ _ _ hj hu' ht'
      hud hum htd htm, ?_, ?_⟩
    · rw [lookupKey_setKey_self]
      simp only [Option.map_some, Option.map_some', Option.some.injEq,
        Prod.mk.injEq]
      omega
    · rw [lookupKey_setKey_self]
      simp only [Option.map_some, Option.map_some', Option.some.injEq,
        Prod.mk.injEq]
      omega

/-- Witness for C4 at a concrete input: reserving 5 minutes and settling with
`commit` (8 actual minutes) or `rollback` restores `reserved_minutes = 3` and
`active_jobs = 1` on the user and `reserved_minutes = 3`, `active_jobs = 2` on
the tenant. -/
theorem C4_witness :
    (∃ s2, commit ⟨2024, 5, 1⟩ "j" 8
        ⟨[("u", ⟨⟨2024, 5, 1⟩, (2024, 5), 10, 50, 8, 2⟩)],
         [("t", ⟨⟨2024, 5, 1⟩, (2024, 5), 20, 80, 8, 3⟩)],
         [("j", ⟨"u", "t", 5, "j"⟩)]⟩ = some s2 ∧
      (lookupKey "u" s2.user_records).map
          (fun r => (r.reserved_minutes, r.active_jobs)) = some (3, 1) ∧
      (lookupKey "t" s2.tenant_records).map
          (fun r => (r.reserved_minutes, r.active_jobs)) = some (3, 2)) ∧
    (∃ s3, rollback ⟨2024, 5, 1⟩ "j"
        ⟨[("u", ⟨⟨2024, 5, 1⟩, (2024, 5), 10, 50, 8, 2⟩)],
         [("t", ⟨⟨2024, 5, 1⟩, (2024, 5), 20, 80, 8, 3⟩)],
         [("j", ⟨"u", "t", 5, "j"⟩)]⟩ = some s3 ∧
      (lookupKey "u" s3.user_records).map
          (fun r => (r.reserved_minutes, r.active_jobs)) = some (3, 1) ∧
      (lookupKey "t" s3.tenant_records).map
          (fun r => (r.reserved_minutes, r.active_jobs)) = some (3, 2)) :=
  C4_conservation ⟨2024, 5, 1⟩ "u" "t" 5 "j" 8 ⟨5, 5, 0, 0⟩
    ⟨[("u", ⟨⟨2024, 5, 1⟩, (2024, 5), 10, 50, 3, 1⟩)],
     [("t", ⟨⟨2024, 5, 1⟩, (2024, 5), 20, 80, 3, 2⟩)], []⟩
    ⟨[("u", ⟨⟨2024, 5, 1⟩, (2024, 5), 10, 50, 8, 2⟩)],
     [("t", ⟨⟨2024, 5, 1⟩, (2024, 5), 20, 80, 8, 3⟩)],
     [("j", ⟨"u", "t", 5, "j"⟩)]⟩
    ⟨⟨2024, 5, 1⟩, (2024, 5), 10, 50, 3, 1⟩
    ⟨⟨2024, 5, 1⟩, (2024, 5), 20, 80, 3, 2⟩
    (by decide) (by decide) (by decide) (by decide) (by decide) (by decide)
    (by decide) (by decide) (by decide) (by decide) (by decide)

/-! ## C5 -/

/-- C5: settlement idempotence.  `commit` and `rollback` on an identifier with
no live job return the store unchanged without raising; consequently (for a
store whose job keys are unique, as Python dict keys are) a second `commit` or
`rollback` with the identifier just settled is a no-op, so calling either
twice has the effect of calling it once. -/
theorem C5_settlement_idempotence
    (today : Date) (tid0 : String) (m : Int) (s : UsageStore) :
    (lookupKey tid0 s.jobs = none →
      commit today tid0 m s = some s ∧ rollback today tid0 s = some s) ∧
    ((s.jobs.map Prod.fst).Nodup →
      (∀ s', commit today tid0 m s = some s' →
        commit today tid0 m s' = some s') ∧
      (∀ s', rollback today tid0 s = some s' →
        rollback today tid0 s' = some s')) := by
  constructor
  · intro h
    constructor <;> simp [commit, rollback, h]
  · intro hnd
    constructor
    · intro s' h'
      rcases hj : lookupKey tid0 s.jobs with _ | job
      · simp only [commit, hj, Option.some.injEq] at h'
        subst h'
        simp [commit, hj]
      · rcases hu : lookupKey job.user_id s.user_records with _ | user
        · simp [commit, hj, hu] at h'
        rcases ht : lookupKey job.tenant_id s.tenant_records with _ | tenant
        · simp [commit, hj, hu, ht] at h'
        simp only [commit, hj, hu, ht, Option.some.injEq] at h'
        subst h'
        simp [commit, lookupKey_eraseKey_self tid0 s.jobs hnd]
    · intro s' h'
      rcases hj : lookupKey tid0 s.jobs with _ | job
      · simp only [rollback, hj, Option.some.injEq] at h'
        subst h'
        simp [rollback, hj]
      · rcases hu : lookupKey job.user_id s.user_records with _ | user
        · simp [rollback, hj, hu] at h'
        rcases ht : lookupKey job.tenant_id s.tenant_records with _ | tenant
        · simp [rollback, hj, hu, ht] at h'
        simp only [rollback, hj, hu, ht, Option.some.injEq] at h'
        subst h'
        simp [rollback, lookupKey_eraseKey_self tid0 s.jobs hnd]

/-- Witness for C5 at concrete inputs: on a store holding the single live job
`"j"`, settling the unknown identifier `"x"` is a no-op for both `commit` and
`rollback`, and a second `commit "j"` after a first one is a no-op. -/
theorem C5_witness :
    (commit ⟨2024, 5, 1⟩ "x" 3
        ⟨[("u", ⟨⟨2024, 5, 1⟩, (2024, 5), 10, 50, 5, 1⟩)],
         [("t", ⟨⟨2024, 5, 1⟩, (2024, 5), 20, 80, 5, 1⟩)],
         [("j", ⟨"u", "t", 5, "j"⟩)]⟩ =
      some ⟨[("u", ⟨⟨2024, 5, 1⟩, (2024, 5), 10, 50, 5, 1⟩)],
            [("t", ⟨⟨2024, 5, 1⟩, (2024, 5), 20, 80, 5, 1⟩)],
            [("j", ⟨"u", "t", 5, "j"⟩)]⟩ ∧
     rollback ⟨2024, 5, 1⟩ "x"
        ⟨[("u", ⟨⟨2024, 5, 1⟩, (2024, 5), 10, 50, 5, 1⟩)],
         [("t", ⟨⟨2024, 5, 1⟩, (2024, 5), 20, 80, 5, 1⟩)],
         [("j", ⟨"u", "t", 5, "j"⟩)]⟩ =
      some ⟨[("u", ⟨⟨2024, 5, 1⟩, (2024, 5), 10, 50, 5, 1⟩)],
            [("t", ⟨⟨2024, 5, 1⟩, (2024, 5), 20, 80, 5, 1⟩)],
            [("j", ⟨"u", "t", 5, "j"⟩)]⟩) ∧
    commit ⟨2024, 5, 1⟩ "j" 3
        ⟨[("u", ⟨⟨2024, 5, 1⟩, (2024, 5), 13, 53, 0, 0⟩)],
         [("t", ⟨⟨2024, 5, 1⟩, (2024, 5), 23, 83, 0, 0⟩)], []⟩ =
      some ⟨[("u", ⟨⟨2024, 5, 1⟩, (2024, 5), 13, 53, 0, 0⟩)],
            [("t", ⟨⟨2024, 5, 1⟩, (2024, 5), 23, 83, 0, 0⟩)], []⟩ :=
  ⟨(C5_settlement_idempotence ⟨2024, 5, 1⟩ "x" 3
      ⟨[("u", ⟨⟨2024, 5, 1⟩, (2024, 5), 10, 50, 5, 1⟩)],
       [("t", ⟨⟨2024, 5, 1⟩, (2024, 5), 20, 80, 5, 1⟩)],
       [("j", ⟨"u", "t", 5, "j"⟩)]⟩).1 (by decide),
   ((C5_settlement_idempotence ⟨2024, 5, 1⟩ "j" 3
      ⟨[("u", ⟨⟨2024, 5, 1⟩, (2024, 5), 10, 50, 5, 1⟩)],
       [("t", ⟨⟨2024, 5, 1⟩, (2024, 5), 20, 80, 5, 1⟩)],
       [("j", ⟨"u", "t", 5, "j"⟩)]⟩).2 (by decide)).1
      ⟨[("u", ⟨⟨2024, 5, 1⟩, (2024, 5), 13, 53, 0, 0⟩)],
       [("t", ⟨⟨2024, 5, 1⟩, (2024, 5), 23, 83, 0, 0⟩)], []⟩ (by decide)⟩

/-! ## C6 -/

/-- C6: commit charges actuals, not estimates.  After reserving `e` minutes
under `jid`, confirming it under `task`, and committing `task` with actual
minutes `a` (records current for `today`, so no rollover fires in between),
`minutes_today` and `minutes_month` grow by exactly `a` on both the user and
the tenant record and `reserved_minutes` returns to its pre-reservation value,
whatever the relation of `a` to `e`. -/
theorem C6_commit_charges_actuals
    (today : Date) (uid tid : String) (e : Int) (jid task : String) (a : Int)
    (L : Limits) (s s1 s2 : UsageStore) (u t : UsageRecord)
    (hu : lookupKey uid s.user_records = some u)
    (hud : u.day = today) (hum : u.month = (today.year, today.month))
    (ht : lookupKey tid s.tenant_records = some t)
    (htd : t.day = today) (htm : t.month = (today.year, today.month))
    (hures : 0 ≤ u.reserved_minutes) (htres : 0 ≤ t.reserved_minutes)
    (hres : reserve today uid tid e jid L s = (.ok (), s1))
    (hconf : confirm jid task s1 = .ok s2) :
    ∃ s3, commit today task a s2 = some s3 ∧
      (lookupKey uid s3.user_records).map
          (fun r => (r.minutes_today, r.minutes_month, r.reserved_minutes)) =
        some (u.minutes_today + a, u.minutes_month + a, u.reserved_minutes) ∧
      (lookupKey tid s3.tenant_records).map
          (fun r => (r.minutes_today, r.minutes_month, r.reserved_minutes)) =
        some (t.minutes_today + a, t.minutes_month + a, t.reserved_minutes) := by
  have hs1 := reserve_ok_shape today uid tid e jid L s s1 u t
    hu hud hum ht htd htm hres
  subst hs1
  have hj0 : lookupKey jid (setKey jid (⟨uid, tid, e, jid⟩ : UsageJob) s.jobs) =
      some ⟨uid, tid, e, jid⟩ := lookupKey_setKey_self _ _ _
  simp only [confirm, hj0, Except.ok.injEq] at hconf
  subst hconf
  have hj : lookupKey task (setKey task
      ({ user_id := uid, tenant_id := tid, reserved_minutes := e,
         task_id := task } : UsageJob)
      (eraseKey jid (setKey jid (⟨uid, tid, e, jid⟩ : UsageJob) s.jobs))) =
      some { user_id := uid, tenant_id := tid, reserved_minutes := e,
             task_id := task } := lookupKey_setKey_self _ _ _
  have hu' : lookupKey uid (setKey uid ({ u with
      reserved_minutes := u.reserved_minutes + e
      active_jobs := u.active_jobs + 1 } : UsageRecord) s.user_records) =
      some { u with
        reserved_minutes := u.reserved_minutes + e
        active_jobs := u.active_jobs + 1 } := lookupKey_setKey_self _ _ _
  have ht' : lookupKey tid (setKey tid ({ t with
      reserved_minutes := t.reserved_minutes + e
      active_jobs := t.active_jobs + 1 } : UsageRecord) s.tenant_records) =
      some { t with
        reserved_minutes := t.reserved_minutes + e
        active_jobs := t.active_jobs + 1 } := lookupKey_setKey_self _ _ _
  refine ⟨_, commit_found today task a _
      ⟨uid, tid, e, task⟩ _ _ hj hu' ht' hud hum htd htm, ?_, ?_⟩
  · rw [lookupKey_setKey_self]
    simp only [Option.map_some, Option.map_some', Option.some.injEq,
      Prod.mk.injEq, true_and, and_true]
    omega
  · rw [lookupKey_setKey_self]
    simp only [Option.map_some, Option.map_some', Option.some.injEq,
      Prod.mk.injEq, true_and, and_true]
    omega

/-- Witness for C6 at the spec's own scenario: reserve 5 minutes, confirm as
`"task-1"`, commit with 8 actual minutes; `minutes_today` grows by 8 (not 5)
and `reserved_minutes` returns to 0. -/
theorem C6_witness :
    ∃ s3, commit ⟨2024, 5, 1⟩ "task-1" 8
        ⟨[("u", ⟨⟨2024, 5, 1⟩, (2024, 5), 0, 0, 5, 1⟩)],
         [("t", ⟨⟨2024, 5, 1⟩, (2024, 5), 0, 0, 5, 1⟩)],
         [("task-1", ⟨"u", "t", 5, "task-1"⟩)]⟩ = some s3 ∧
      (lookupKey "u" s3.user_records).map
          (fun r => (r.minutes_today, r.minutes_month, r.reserved_minutes)) =
        some (0 + 8, 0 + 8, 0) ∧
      (lookupKey "t" s3.tenant_records).map
          (fun r => (r.minutes_today, r.minutes_month, r.reserved_minutes)) =
        some (0 + 8, 0 + 8, 0) :=
  C6_commit_charges_actuals ⟨2024, 5, 1⟩ "u" "t" 5 "j" "task-1" 8 ⟨5, 5, 0, 0⟩
    ⟨[("u", ⟨⟨2024, 5, 1⟩, (2024, 5), 0, 0, 0, 0⟩)],
     [("t", ⟨⟨2024, 5, 1⟩, (2024, 5), 0, 0, 0, 0⟩)], []⟩
    ⟨[("u", ⟨⟨2024, 5, 1⟩, (2024, 5), 0, 0, 5, 1⟩)],
     [("t", ⟨⟨2024, 5, 1⟩, (2024, 5), 0, 0, 5, 1⟩)],
     [("j", ⟨"u", "t", 5, "j"⟩)]⟩
    ⟨[("u", ⟨⟨2024, 5, 1⟩, (2024, 5), 0, 0, 5, 1⟩)],
     [("t", ⟨⟨2024, 5, 1⟩, (2024, 5), 0, 0, 5, 1⟩)],
     [("task-1", ⟨"u", "t", 5, "task-1"⟩)]⟩
    ⟨⟨2024, 5, 1⟩, (2024, 5), 0, 0, 0, 0⟩
    ⟨⟨2024, 5, 1⟩, (2024, 5), 0, 0, 0, 0⟩
    (by decide) (by decide) (by decide) (by decide) (by decide) (by decide)
    (by decide) (by decide) (by decide) (by decide)

/-! ## C7 -/

/-- Every live job refers to identities that have usage records (which is why
the `KeyError` branch of `commit`/`rollback` never fires on reachable
stores). -/
def jobsHaveRecords (s : UsageStore) : Prop :=
  ∀ p ∈ s.jobs, (lookupKey p.2.user_id s.user_records).isSome ∧
    (lookupKey p.2.tenant_id s.tenant_records).isSome

/-- The invariant preserved by every `UsageStore` operation. -/
def storeWF (s : UsageStore) : Prop := storeNonneg s ∧ jobsHaveRecords s

theorem lookupKey_setKey_isSome (k k' : String) (v : β) (l : List (String × β))
    (h : (lookupKey k l).isSome) : (lookupKey k (setKey k' v l)).isSome := by
  by_cases he : k = k'
  · subst he; rw [lookupKey_setKey_self]; rfl
  · rw [lookupKey_setKey_ne k k' v l he]; exact h

theorem getD_fresh_nonneg (today : Date) (uid : String)
    (l : List (String × UsageRecord)) (h : ∀ p ∈ l, recordNonneg p.2) :
    recordNonneg ((lookupKey uid l).getD (freshRecord today)) := by
  rcases hl : lookupKey uid l with _ | v
  · simp [freshRecord, recordNonneg]
  · simpa using h _ (lookupKey_mem uid l v hl)

theorem setKey_records_nonneg (k : String) (v : UsageRecord)
    (l : List (String × UsageRecord)) (hv : recordNonneg v)
    (h : ∀ p ∈ l, recordNonneg p.2) :
    ∀ p ∈ setKey k v l, recordNonneg p.2 := by
  intro p hp
  rcases mem_setKey k v l p hp with h1 | h1
  · rw [h1]; exact hv
  · exact h p h1

theorem ensureRecords_wf (today : Date) (uid tid : String) (s : UsageStore)
    (h : storeWF s) : storeWF (ensureRecords today uid tid s) := by
  obtain ⟨⟨hn1, hn2⟩, hj⟩ := h
  refine ⟨⟨?_, ?_⟩, ?_⟩
  · simp only [ensureRecords]
    exact setKey_records_nonneg _ _ _
      (applyPeriodRollover_nonneg _ _ (getD_fresh_nonneg today uid _ hn1)) hn1
  · simp only [ensureRecords]
    exact setKey_records_nonneg _ _ _
      (applyPeriodRollover_nonneg _ _ (getD_fresh_nonneg today tid _ hn2)) hn2
  · intro p hp
    obtain ⟨h1, h2⟩ := hj p (by simpa [ensureRecords] using hp)
    exact ⟨lookupKey_setKey_isSome _ _ _ _ h1, lookupKey_setKey_isSome _ _ _ _ h2⟩

theorem reserve_wf (today : Date) (uid tid : String) (m : Int) (jid : String)
    (L : Limits) (s : UsageStore) (hm : 0 ≤ m) (h : storeWF s) :
    storeWF (reserve today uid tid m jid L s).2 := by
  have h1 := ensureRecords_wf today uid tid s h
  rw [reserve_eq]
  rcases hck : reserveChecked (applyPeriodRollover today
      ((lookupKey uid s.user_records).getD (freshRecord today)))
      (applyPeriodRollover today
        ((lookupKey tid s.tenant_records).getD (freshRecord today))) m L
    with _ | r
  swap
  · simpa [hck] using h1
  simp only [hck]
  obtain ⟨⟨hn1, hn2⟩, hj⟩ := h1
  have hun : recordNonneg (applyPeriodRollover today
      ((lookupKey uid s.user_records).getD (freshRecord today))) :=
    applyPeriodRollover_nonneg _ _ (getD_fresh_nonneg today uid _ h.1.1)
  have htn : recordNonneg (applyPeriodRollover today
      ((lookupKey tid s.tenant_records).getD (freshRecord today))) :=
    applyPeriodRollover_nonneg _ _ (getD_fresh_nonneg today tid _ h.1.2)
  refine ⟨⟨?_, ?_⟩, ?_⟩
  · refine setKey_records_nonneg _ _ _ ?_ hn1
    obtain ⟨a1, a2, a3, a4⟩ := hun
    exact ⟨a1, a2, by simpa using add_nonneg a3 hm, by positivity⟩
  · refine setKey_records_nonneg _ _ _ ?_ hn2
    obtain ⟨a1, a2, a3, a4⟩ := htn
    exact ⟨a1, a2, by simpa using add_nonneg a3 hm, by positivity⟩
  · intro p hp
    rcases mem_setKey _ _ _ p hp with h2 | h2
    · subst h2
      constructor
      · exact lookupKey_setKey_isSome _ _ _ _
          (by rw [lookup_user_ensureRecords]; rfl)
      · exact lookupKey_setKey_isSome _ _ _ _
          (by rw [lookup_tenant_ensureRecords]; rfl)
    · obtain ⟨b1, b2⟩ := hj p h2
      exact ⟨lookupKey_setKey_isSome _ _ _ _ b1, lookupKey_setKey_isSome _ _ _ _ b2⟩

theorem confirm_wf (rid task : String) (s s' : UsageStore)
    (h : storeWF s) (hc : confirm rid task s = .ok s') : storeWF s' := by
  rcases hj : lookupKey rid s.jobs with _ | job
  · simp [confirm, hj] at hc
  simp only [confirm, hj, Except.ok.injEq] at hc
  subst hc
  refine ⟨h.1, ?_⟩
  intro p hp
  rcases mem_setKey _ _ _ p hp with h2 | h2
  · subst h2
    simpa using h.2 (rid, job) (lookupKey_mem rid s.jobs job hj)
  · exact h.2 p (mem_eraseKey rid s.jobs p h2)

theorem commit_wf (today : Date) (task : String) (a : Int) (s s' : UsageStore)
    (ha : 0 ≤ a) (h : storeWF s) (hc : commit today task a s = some s') :
    storeWF s' := by
  rcases hj : lookupKey task s.jobs with _ | job
  · simp only [commit, hj, Option.some.injEq] at hc
    subst hc; exact h
  rcases hu : lookupKey job.user_id s.user_records with _ | user
  · simp [commit, hj, hu] at hc
  rcases ht : lookupKey job.tenant_id s.tenant_records with _ | tenant
  · simp [commit, hj, hu, ht] at hc
  simp only [commit, hj, hu, ht, Option.some.injEq] at hc
  subst hc
  have hunn : recordNonneg (applyPeriodRollover today user) :=
    applyPeriodRollover_nonneg _ _
      (by simpa using h.1.1 _ (lookupKey_mem _ _ _ hu))
  have htnn : recordNonneg (applyPeriodRollover today tenant) :=
    applyPeriodRollover_nonneg _ _
      (by simpa using h.1.2 _ (lookupKey_mem _ _ _ ht))
  refine ⟨⟨?_, ?_⟩, ?_⟩
  · refine setKey_records_nonneg _ _ _ ?_ h.1.1
    obtain ⟨a1, a2, a3, a4⟩ := hunn
    exact ⟨by simpa using add_nonneg a1 ha, by simpa using add_nonneg a2 ha,
      by simp, by simp⟩
  · refine setKey_records_nonneg _ _ _ ?_ h.1.2
    obtain ⟨a1, a2, a3, a4⟩ := htnn
    exact ⟨by simpa using add_nonneg a1 ha, by simpa using add_nonneg a2 ha,
      by simp, by simp⟩
  · intro p hp
    obtain ⟨b1, b2⟩ := h.2 p (mem_eraseKey task s.jobs p hp)
    exact ⟨lookupKey_setKey_isSome _ _ _ _ b1, lookupKey_setKey_isSome _ _ _ _ b2⟩

theorem rollback_wf (today : Date) (jid : String) (s s' : UsageStore)
    (h : storeWF s) (hc : rollback today jid s = some s') : storeWF s' := by
  rcases hj : lookupKey jid s.jobs with _ | job
  · simp only [rollback, hj, Option.some.injEq] at hc
    subst hc; exact h
  rcases hu : lookupKey job.user_id s.user_records with _ | user
  · simp [rollback, hj, hu] at hc
  rcases ht : lookupKey job.tenant_id s.tenant_records with _ | tenant
  · simp [rollback, hj, hu, ht] at hc
  simp only [rollback, hj, hu, ht, Option.some.injEq] at hc
  subst hc
  have hunn : recordNonneg (applyPeriodRollover today user) :=
    applyPeriodRollover_nonneg _ _
      (by simpa using h.1.1 _ (lookupKey_mem _ _ _ hu))
  have htnn : recordNonneg (applyPeriodRollover today tenant) :=
    applyPeriodRollover_nonneg _ _
      (by simpa using h.1.2 _ (lookupKey_mem _ _ _ ht))
  refine ⟨⟨?_, ?_⟩, ?_⟩
  · refine setKey_records_nonneg _ _ _ ?_ h.1.1
    obtain ⟨a1, a2, a3, a4⟩ := hunn
    exact ⟨a1, a2, by simp, by simp⟩
  · refine setKey_records_nonneg _ _ _ ?_ h.1.2
    obtain ⟨a1, a2, a3, a4⟩ := htnn
    exact ⟨a1, a2, by simp, by simp⟩
  · intro p hp
    obtain ⟨b1, b2⟩ := h.2 p (mem_eraseKey jid s.jobs p hp)
    exact ⟨lookupKey_setKey_isSome _ _ _ _ b1, lookupKey_setKey_isSome _ _ _ _ b2⟩

theorem runOp_wf (today : Date) (s : UsageStore) (op : Op)
    (hop : opNonneg op) (h : storeWF s) : storeWF (runOp today s op) := by
  cases op with
  | reserveOp u t m j L => exact reserve_wf today u t m j L s hop h
  | confirmOp r t =>
    simp only [runOp]
    rcases hc : confirm r t s with e | s'
    · exact h
    · exact confirm_wf r t s s' h hc
  | commitOp t m =>
    simp only [runOp]
    rcases hc : commit today t m s with _ | s'
    · exact h
    · exact commit_wf today t m s s' hop h hc
  | rollbackOp j =>
    simp only [runOp]
    rcases hc : rollback today j s with _ | s'
    · exact h
    · exact rollback_wf today j s s' h hc
  | getUsageOp u t => exact ensureRecords_wf today u t s h

theorem run_wf (ops : List (Date × Op)) (s : UsageStore)
    (h : storeWF s) (hops : ∀ e ∈ ops, opNonneg e.2) : storeWF (run s ops) := by
  induction ops generalizing s with
  | nil => exact h
  | cons e rest ih =>
    exact ih (runOp e.1 s e.2)
      (runOp_wf e.1 s e.2 (hops e (by simp)) h)
      (fun x hx => hops x (by simp [hx]))

/-- C7: non-negativity invariant.  Starting from a fresh store, any sequence
of `reserve`, `confirm`, `commit`, `rollback` and `get_usage` calls whose
minute arguments are non-negative leaves every user and tenant record with
`minutes_today`, `minutes_month`, `reserved_minutes` and `active_jobs` all
≥ 0 (the decrements in `commit` and `rollback` are floored at 0, so they can
never push a counter negative). -/
theorem C7_counters_nonneg (ops : List (Date × Op))
    (hops : ∀ e ∈ ops, opNonneg e.2) :
    storeNonneg (run emptyStore ops) :=
  (run_wf ops emptyStore
    ⟨⟨fun p hp => by simp [emptyStore] at hp,
      fun p hp => by simp [emptyStore] at hp⟩,
     fun p hp => by simp [emptyStore] at hp⟩ hops).1

/-- Witness for C7 on a concrete call sequence: reserve, confirm, commit with
actuals, then a rollback of an unknown id and a rollover-triggering
`get_usage` on a later day. -/
theorem C7_witness :
    (∀ e ∈ ([(⟨2024, 5, 1⟩, Op.reserveOp "u" "t" 5 "j" ⟨5, 5, 120, 1000⟩),
             (⟨2024, 5, 1⟩, Op.confirmOp "j" "task-1"),
             (⟨2024, 5, 1⟩, Op.commitOp "task-1" 8),
             (⟨2024, 5, 1⟩, Op.rollbackOp "ghost"),
             (⟨2024, 5, 2⟩, Op.getUsageOp "u" "t")] : List (Date × Op)),
      opNonneg e.2) ∧
    storeNonneg (run emptyStore
      [(⟨2024, 5, 1⟩, Op.reserveOp "u" "t" 5 "j" ⟨5, 5, 120, 1000⟩),
       (⟨2024, 5, 1⟩, Op.confirmOp "j" "task-1"),
       (⟨2024, 5, 1⟩, Op.commitOp "task-1" 8),
       (⟨2024, 5, 1⟩, Op.rollbackOp "ghost"),
       (⟨2024, 5, 2⟩, Op.getUsageOp "u" "t")]) :=
  ⟨by decide, C7_counters_nonneg _ (by decide)⟩

/-! ## C8, C9 -/

/-- The refilled token count `allow` computes before deciding admission:
the stored tokens plus elapsed time × `rate / window_seconds`, capped at the
capacity `rate`; a missing bucket starts full with a zero elapsed time. -/
def refilled (now : ℚ) (key : String) (rate window : Int) (b : Buckets) : ℚ :=
  let p := (lookupKey key b).getD ((rate : ℚ), now)
  min (rate : ℚ) (p.1 + (now - p.2) * ((rate : ℚ) / (window : ℚ)))

theorem allow_eq (now : ℚ) (key : String) (rate cost window : Int)
    (b : Buckets) :
    allow now key rate cost window b =
      (decide ((cost : ℚ) ≤ refilled now key rate window b),
       setKey key
         (if (cost : ℚ) ≤ refilled now key rate window b then
            refilled now key rate window b - (cost : ℚ)
          else refilled now key rate window b, now) b) := rfl

/-- C8: token-bucket boundedness.  Along any sequence of `allow` calls for one
key with one fixed non-negative `rate`, non-decreasing timestamps,
non-negative costs and positive windows (the states captured by
`BucketReach`), the stored token count stays within `[0, rate]`: refill is
capped at the capacity `rate`, and a deduction only happens when the tokens
cover the cost. -/
theorem C8_token_bucket_bounds (key : String) (rate : Int) (now : ℚ)
    (b : Buckets) (hr : 0 ≤ rate) (h : BucketReach key rate now b) :
    ∀ tok last, lookupKey key b = some (tok, last) →
      0 ≤ tok ∧ tok ≤ (rate : ℚ) ∧ last ≤ now := by
  have hcap : (0 : ℚ) ≤ (rate : ℚ) := by exact_mod_cast hr
  induction h with
  | init now0 =>
    intro tok last hl
    simp [lookupKey] at hl
  | step now now' cost window b hb hle hcost hwin ih =>
    intro tok last hl
    rw [allow_eq, lookupKey_setKey_self, Option.some.injEq,
      Prod.mk.injEq] at hl
    obtain ⟨h1, h2⟩ := hl
    have hp : 0 ≤ ((lookupKey key b).getD ((rate : ℚ), now')).1 ∧
        ((lookupKey key b).getD ((rate : ℚ), now')).1 ≤ (rate : ℚ) ∧
        ((lookupKey key b).getD ((rate : ℚ), now')).2 ≤ now' := by
      rcases hlb : lookupKey key b with _ | q
      · simp only [hlb, Option.getD_none]
        exact ⟨hcap, le_refl _, le_refl _⟩
      · obtain ⟨b1, b2, b3⟩ := ih q.1 q.2 (by rw [hlb])
        simp only [hlb, Option.getD_some]
        exact ⟨b1, b2, le_trans b3 hle⟩
    have hrefill : 0 ≤ refilled now' key rate window b ∧
        refilled now' key rate window b ≤ (rate : ℚ) := by
      unfold refilled
      constructor
      · refine le_min hcap ?_
        refine add_nonneg hp.1 (mul_nonneg ?_ ?_)
        · simpa using hp.2.2
        · refine div_nonneg hcap ?_
          have : (0 : ℚ) < (window : ℚ) := by exact_mod_cast hwin
          exact this.le
      · exact min_le_left _ _
    have hcq : (0 : ℚ) ≤ (cost : ℚ) := by exact_mod_cast hcost
    refine ⟨?_, ?_, le_of_eq h2.symm⟩
    · rw [← h1]
      split_ifs with hadm
      · simpa using hadm
      · exact hrefill.1
    · rw [← h1]
      split_ifs with hadm
      · calc refilled now' key rate window b - (cost : ℚ) ≤
            refilled now' key rate window b := by simpa using hcq
          _ ≤ (rate : ℚ) := hrefill.2
      · exact hrefill.2

/-- Witness for C8 at a concrete input: rate 2, one admitted call of cost 1 at
time 1 starting from an empty bucket leaves the stored `(tokens, last)` pair
equal to `(1, 1)`, and the theorem yields `0 ≤ 1 ∧ 1 ≤ 2 ∧ 1 ≤ 1`. -/
theorem C8_witness :
    (0 : ℚ) ≤ 1 ∧ (1 : ℚ) ≤ ((2 : Int) : ℚ) ∧ (1 : ℚ) ≤ 1 :=
  C8_token_bucket_bounds "k" 2 1 (allow 1 "k" 2 1 60 []).2 (by decide)
    (BucketReach.step 0 1 1 60 [] (BucketReach.init 0)
      (by norm_num) (by decide) (by decide))
    1 1 (by norm_num [allow, refilled, lookupKey, setKey])

/-- C9: the admission contract of `allow`.  The bucket is refilled by elapsed
time × `rate / window_seconds`, capped at `capacity = rate` (the `refilled`
value); the call returns `true` and deducts `cost` tokens exactly when the
refilled count covers `cost`, and otherwise returns `false`, the new stored
state being the refilled count untouched — in both cases with the refill
timestamp advanced to `now`. -/
theorem C9_allow_contract (now : ℚ) (key : String) (rate cost window : Int)
    (b : Buckets) (_hw : 0 < window) :
    ((allow now key rate cost window b).1 = true ↔
      (cost : ℚ) ≤ refilled now key rate window b) ∧
    ((cost : ℚ) ≤ refilled now key rate window b →
      (allow now key rate cost window b).2 =
        setKey key (refilled now key rate window b - (cost : ℚ), now) b) ∧
    (¬ (cost : ℚ) ≤ refilled now key rate window b →
      (allow now key rate cost window b).2 =
        setKey key (refilled now key rate window b, now) b) := by
  rw [allow_eq]
  refine ⟨by simp, ?_, ?_⟩ <;> intro h <;> simp [h]

/-- Witness for C9 at a concrete input: at time 0 on an empty bucket with rate
2 and window 60, a call of cost 1 is admitted and the bucket stores
`(2 - 1, 0)`. -/
theorem C9_witness :
    ((allow 0 "k" 2 1 60 []).1 = true ↔
      (1 : ℚ) ≤ refilled 0 "k" 2 60 []) ∧
    ((1 : ℚ) ≤ refilled 0 "k" 2 60 [] →
      (allow 0 "k" 2 1 60 []).2 =
        setKey "k" (refilled 0 "k" 2 60 [] - (1 : ℚ), 0) []) ∧
    (¬ (1 : ℚ) ≤ refilled 0 "k" 2 60 [] →
      (allow 0 "k" 2 1 60 []).2 =
        setKey "k" (refilled 0 "k" 2 60 [], 0) []) :=
  C9_allow_contract 0 "k" 2 1 60 [] (by decide)

/-! ## C10 -/

/-- C10: after `confirm` re-keys an unsettled job from `jid` to a distinct
`task`, the original `jid` addresses nothing: its lookup is `none`, no usage
record changed, and a later `commit` or `rollback` under `jid` is a silent
no-op on the whole store — the reservation stays held under `task` only.
(The job keys are assumed unique, as Python dict keys are.) -/
theorem C10_confirm_rekeys (jid task : String) (m : Int) (today : Date)
    (s s' : UsageStore)
    (hnd : (s.jobs.map Prod.fst).Nodup)
    (hne : task ≠ jid)
    (hc : confirm jid task s = .ok s') :
    lookupKey jid s'.jobs = none ∧
    s'.user_records = s.user_records ∧
    s'.tenant_records = s.tenant_records ∧
    commit today jid m s' = some s' ∧
    rollback today jid s' = some s' := by
  rcases hj : lookupKey jid s.jobs with _ | job
  · simp [confirm, hj] at hc
  simp only [confirm, hj, Except.ok.injEq] at hc
  subst hc
  have hnone : lookupKey jid (setKey task { job with task_id := task }
      (eraseKey jid s.jobs)) = none := by
    rw [lookupKey_setKey_ne jid task _ _ (Ne.symm hne)]
    exact lookupKey_eraseKey_self jid s.jobs hnd
  exact ⟨hnone, rfl, rfl, by simp [commit, hnone], by simp [rollback, hnone]⟩

/-- Witness for C10 at a concrete input: confirming job `"j"` as `"task-1"`
makes `"j"` unaddressable and `commit`/`rollback` under `"j"` no-ops. -/
theorem C10_witness :
    lookupKey "j"
      (⟨[("u", ⟨⟨2024, 5, 1⟩, (2024, 5), 0, 0, 5, 1⟩)],
        [("t", ⟨⟨2024, 5, 1⟩, (2024, 5), 0, 0, 5, 1⟩)],
        [("task-1", ⟨"u", "t", 5, "task-1"⟩)]⟩ : UsageStore).jobs = none ∧
    (⟨[("u", ⟨⟨2024, 5, 1⟩, (2024, 5), 0, 0, 5, 1⟩)],
      [("t", ⟨⟨2024, 5, 1⟩, (2024, 5), 0, 0, 5, 1⟩)],
      [("task-1", ⟨"u", "t", 5, "task-1"⟩)]⟩ : UsageStore).user_records =
      [("u", ⟨⟨2024, 5, 1⟩, (2024, 5), 0, 0, 5, 1⟩)] ∧
    (⟨[("u", ⟨⟨2024, 5, 1⟩, (2024, 5), 0, 0, 5, 1⟩)],
      [("t", ⟨⟨2024, 5, 1⟩, (2024, 5), 0, 0, 5, 1⟩)],
      [("task-1", ⟨"u", "t", 5, "task-1"⟩)]⟩ : UsageStore).tenant_records =
      [("t", ⟨⟨2024, 5, 1⟩, (2024, 5), 0, 0, 5, 1⟩)] ∧
    commit ⟨2024, 5, 1⟩ "j" 9
      ⟨[("u", ⟨⟨2024, 5, 1⟩, (2024, 5), 0, 0, 5, 1⟩)],
       [("t", ⟨⟨2024, 5, 1⟩, (2024, 5), 0, 0, 5, 1⟩)],
       [("task-1", ⟨"u", "t", 5, "task-1"⟩)]⟩ =
      some ⟨[("u", ⟨⟨2024, 5, 1⟩, (2024, 5), 0, 0, 5, 1⟩)],
            [("t", ⟨⟨2024, 5, 1⟩, (2024, 5), 0, 0, 5, 1⟩)],
            [("task-1", ⟨"u", "t", 5, "task-1"⟩)]⟩ ∧
    rollback ⟨2024, 5, 1⟩ "j"
      ⟨[("u", ⟨⟨2024, 5, 1⟩, (2024, 5), 0, 0, 5, 1⟩)],
       [("t", ⟨⟨2024, 5, 1⟩, (2024, 5), 0, 0, 5, 1⟩)],
       [("task-1", ⟨"u", "t", 5, "task-1"⟩)]⟩ =
      some ⟨[("u", ⟨⟨2024, 5, 1⟩, (2024, 5), 0, 0, 5, 1⟩)],
            [("t", ⟨⟨2024, 5, 1⟩, (2024, 5), 0, 0, 5, 1⟩)],
            [("task-1", ⟨"u", "t", 5, "task-1"⟩)]⟩ :=
  C10_confirm_rekeys "j" "task-1" 9 ⟨2024, 5, 1⟩
    ⟨[("u", ⟨⟨2024, 5, 1⟩, (2024, 5), 0, 0, 5, 1⟩)],
     [("t", ⟨⟨2024, 5, 1⟩, (2024, 5), 0, 0, 5, 1⟩)],
     [("j", ⟨"u", "t", 5, "j"⟩)]⟩
    ⟨[("u", ⟨⟨2024, 5, 1⟩, (2024, 5), 0, 0, 5, 1⟩)],
     [("t", ⟨⟨2024, 5, 1⟩, (2024, 5), 0, 0, 5, 1⟩)],
     [("task-1", ⟨"u", "t", 5, "task-1"⟩)]⟩
    (by decide) (by decide) (by decide)

end DCTWhisper
